import Mathlib

/-!
Verification development for the MinnalAmmu story universe repository.

The Python sources are embedded shallowly: dictionaries become ordered
association lists (CPython dictionaries preserve insertion order, and
assignment to an existing key keeps its position), records become
structures, and every fallible operation (a dictionary access or an
integer parse that can raise) returns an Option.  String primitives used
by the code (strip, startswith, split, replace, lower, the substring
test, slicing and join) are modelled on the underlying character lists
so that every definition evaluates by kernel reduction.
-/

namespace MinnalAmmu

/-! ## String primitives modelling the Python built-ins -/

/-- Whitespace predicate used by `pyStrip`; models the characters removed
by Python `str.strip()` (space, tab, newline, carriage return — the form
feed and vertical tab of Python never occur in this repository's data). -/
def pySpace (c : Char) : Bool :=
  c == ' ' || c == '\t' || c == '\n' || c == '\r'

/-- Models Python `s.strip()`: remove leading and trailing whitespace. -/
def pyStrip (s : String) : String :=
  String.mk (((s.data.dropWhile pySpace).reverse.dropWhile pySpace).reverse)

/-- Boolean prefix test on character lists. -/
def listIsPrefix : List Char → List Char → Bool
  | [], _ => true
  | _ :: _, [] => false
  | a :: as, b :: bs => a == b && listIsPrefix as bs

/-- Boolean infix (contiguous sublist) test on character lists. -/
def listIsInfix (pat : List Char) : List Char → Bool
  | [] => listIsPrefix pat []
  | b :: bs => listIsPrefix pat (b :: bs) || listIsInfix pat bs

/-- Models Python `s.startswith(pat)`. -/
def pyStartsWith (s pat : String) : Bool :=
  listIsPrefix pat.data s.data

/-- Models Python `pat in s` (substring containment). -/
def pyContains (s pat : String) : Bool :=
  listIsInfix pat.data s.data

/-- Models Python `s.lower()` on the ASCII data of this repository. -/
def pyLower (s : String) : String :=
  String.mk (s.data.map Char.toLower)

/-- Fuel-driven worker for `pyReplace`; the fuel is the length of the
subject list, which suffices because the pattern is never empty in the
source code being modelled. -/
def pyReplaceAux (pat rep : List Char) : Nat → List Char → List Char
  | 0, l => l
  | _ + 1, [] => []
  | fuel + 1, c :: cs =>
    if listIsPrefix pat (c :: cs) then
      rep ++ pyReplaceAux pat rep fuel ((c :: cs).drop pat.length)
    else
      c :: pyReplaceAux pat rep fuel cs

/-- Models Python `s.replace(pat, rep)` for a nonempty pattern: replace
every non-overlapping occurrence, scanning left to right. -/
def pyReplace (s pat rep : String) : String :=
  String.mk (pyReplaceAux pat.data rep.data s.data.length s.data)

/-- Fuel-driven worker for `pySplit`, accumulating the current block in
reverse. -/
def pySplitAux (sep : List Char) : Nat → List Char → List Char → List (List Char)
  | 0, acc, l => [acc.reverse ++ l]
  | _ + 1, acc, [] => [acc.reverse]
  | fuel + 1, acc, c :: cs =>
    if listIsPrefix sep (c :: cs) then
      acc.reverse :: pySplitAux sep fuel [] ((c :: cs).drop sep.length)
    else
      pySplitAux sep fuel (c :: acc) cs

/-- Models Python `s.split(sep)` for a nonempty separator. -/
def pySplit (s sep : String) : List String :=
  (pySplitAux sep.data s.data.length [] s.data).map String.mk

/-- Models Python `sep.join(xs)`. -/
def pyJoin (sep : String) : List String → String
  | [] => ""
  | [x] => x
  | x :: y :: rest => x ++ sep ++ pyJoin sep (y :: rest)

/-! ## The content parser of story_generator_app.main (lines 364-395)

The raw generated text is split on blank lines; each block is stripped
and fed through a scanner that recognises the labels "Title:", "Story:"
and "Moral Lesson:", collecting every block seen while the story region
is open (the opening "Story:" block included) into the body accumulator.
-/

structure ParseState where
  title : String
  inStory : Bool
  moral : String
  content : List String
deriving DecidableEq, Repr

/-- One iteration of the section loop of `main` (lines 371-393). -/
def processSection (st : ParseState) (raw : String) : ParseState :=
  let sec := pyStrip raw
  let st1 :=
    if pyStartsWith (pyStrip sec) "Title:" then
      { st with title := pyStrip (pyReplace sec "Title:" "") }
    else if pyStartsWith sec "Story:" then
      { st with inStory := true }
    else if pyStartsWith sec "Moral Lesson:" then
      { st with inStory := false, moral := pyStrip (pyReplace sec "Moral Lesson:" "") }
    else st
  if st1.inStory then { st1 with content := st1.content ++ [sec] } else st1

/-- The whole parsing pass of `main`: split the raw text into blank-line
separated sections, run the scanner, and join the collected body blocks
with double line breaks.  Returns (title, story_text, moral). -/
def parse_story (raw : String) : String × String × String :=
  let sections := pySplit raw "\n\n"
  let final := sections.foldl processSection ⟨"", false, "", []⟩
  (final.title, pyJoin "\n\n" final.content, final.moral)

/-! ## Data model

Records are the dictionaries built by the Python code.  A Character or
Location record always carries id, created_date and last_updated once it
has passed through the builder; story_appearances is optional because
both builders guard it with an explicit key-presence test. -/

structure Character where
  id : String
  description : String
  powers : List String
  story_appearances : Option (List String)
  created_date : String
  last_updated : String
deriving DecidableEq, Repr

structure Location where
  id : String
  description : String
  story_appearances : Option (List String)
  created_date : String
  last_updated : String
deriving DecidableEq, Repr

structure StoryMeta where
  generated_date : String
  theme : String
  target_age : String
  word_count : Nat
  characters_used : List String
  locations_used : List String
deriving DecidableEq, Repr

structure Story where
  id : String
  title : String
  content : String
  moral_lesson : String
  metadata : StoryMeta
deriving DecidableEq, Repr

/-- The universe_data dictionary: characters and locations are keyed by
name in insertion order (CPython dictionary semantics), stories is a
plain list. -/
structure UniverseData where
  characters : List (String × Character)
  locations : List (String × Location)
  stories : List Story
deriving DecidableEq, Repr

/-- Models Python `d.get(k)` / `d[k]` on a string-keyed dictionary:
the value at the first (unique, in a real dictionary) matching key. -/
def pyGet {α : Type} (l : List (String × α)) (k : String) : Option α :=
  (l.find? (fun p => p.1 == k)).map (fun p => p.2)

/-- Models Python `d[k] = v`: overwrite in place if the key exists
(keeping its position), otherwise append at the end. -/
def dictSet {α : Type} (l : List (String × α)) (k : String) (v : α) : List (String × α) :=
  if l.any (fun p => p.1 == k) then
    l.map (fun p => if p.1 == k then (k, v) else p)
  else
    l ++ [(k, v)]

/-! ## Loading (universe_builder.load_universe, lines 12-34, and
story_generator_app.load_universe, lines 61-79)

Both loaders wrap the file read and the JSON parse in a try/except: a
missing file and an unparseable file each leave an empty in-memory
graph behind (an error message is displayed, no exception escapes).
The file system outcome is abstracted into `FileState`. -/

inductive FileState where
  | missing
  | corrupt
  | valid (u : UniverseData)
deriving DecidableEq, Repr

/-- The observable result of both load_universe variants on the
modelled fields: a parsed file is taken as is; a corrupt file and a
missing file both reset the state to an empty graph. -/
def load_universe : FileState → UniverseData
  | FileState.valid u => u
  | FileState.corrupt => { characters := [], locations := [], stories := [] }
  | FileState.missing => { characters := [], locations := [], stories := [] }

/-! ## Identifier allocation (generate_id, universe_builder lines 42-70
and story_generator_app lines 239-267; the two copies are identical)

`f"{prefix}{year}{month:02d}{day:02d}{sequence:05d}"` with the sequence
computed as one plus the maximum `int(id[-5:])` over the existing ids of
the record type that start with the prefix-and-date key. -/

/-- Models `f"{n:02d}"` for a natural number. -/
def pad2 (n : Nat) : String :=
  if n < 10 then "0" ++ Nat.repr n else Nat.repr n

/-- The decimal digit character of a value below ten (48 is the code
point of the zero digit). -/
def digitChar (n : Nat) : Char :=
  if n < 10 then Char.ofNat (48 + n) else '*'

/-- Models `f"{n:05d}"` for a natural number: the five zero-padded
decimal digits when n fits, the plain decimal rendering otherwise. -/
def pad5 (n : Nat) : String :=
  if n < 100000 then
    String.mk [digitChar (n / 10000 % 10), digitChar (n / 1000 % 10),
      digitChar (n / 100 % 10), digitChar (n / 10 % 10), digitChar (n % 10)]
  else Nat.repr n

/-- Value of a decimal digit character, none on anything else. -/
def digitVal (c : Char) : Option Nat :=
  if 48 ≤ c.toNat ∧ c.toNat ≤ 57 then some (c.toNat - 48) else none

/-- Accumulating decimal parse of a character list. -/
def parseDigitsAux : List Char → Nat → Option Nat
  | [], acc => some acc
  | c :: cs, acc =>
    match digitVal c with
    | none => none
    | some d => parseDigitsAux cs (acc * 10 + d)

/-- Models Python `int(s)` on the digit strings that occur as identifier
tails; a non-digit character or an empty string raises, hence none. -/
def parseNat (s : String) : Option Nat :=
  if s.data.isEmpty then none else parseDigitsAux s.data 0

/-- Models the Python slice `s[-5:]`. -/
def lastFive (s : String) : String :=
  String.mk (s.data.drop (s.data.length - 5))

/-- The identifiers already assigned to records of the given kind
(generate_id lines 52-58). An unknown kind yields the empty list. -/
def existing_ids (u : UniverseData) (pfx : String) : List String :=
  if pfx == "CHAR" then u.characters.map (fun p => p.2.id)
  else if pfx == "LOC" then u.locations.map (fun p => p.2.id)
  else if pfx == "STORY" then u.stories.map (fun s => s.id)
  else []

/-- The `today_prefix` local of generate_id:
`f"{prefix}{year}{month:02d}{day:02d}"`. -/
def dayKey (pfx : String) (y mo dy : Nat) : String :=
  pfx ++ Nat.repr y ++ pad2 mo ++ pad2 dy

/-- The `today_ids` local of generate_id: the existing ids of the kind
that start with the prefix-and-date key. -/
def todayIds (u : UniverseData) (pfx : String) (y mo dy : Nat) : List String :=
  (existing_ids u pfx).filter (fun i => pyStartsWith i (dayKey pfx y mo dy))

/-- The list comprehension `[int(id[-5:]) for id in today_ids]`; a tail
that is not parseable as digits raises ValueError, hence none. -/
def parseSeqs : List String → Option (List Nat)
  | [] => some []
  | i :: rest =>
    match parseNat (lastFive i) with
    | none => none
    | some k => (parseSeqs rest).map (fun l => k :: l)

/-- generate_id with the date injected (the callers pass no explicit
sequence, so the sequence is always computed from the graph).  Python
`max` over the nonempty seq list is the fold of Nat.max from 0. -/
def generate_id (u : UniverseData) (pfx : String) (y mo dy : Nat) : Option String :=
  let ids := todayIds u pfx y mo dy
  if ids.isEmpty then
    some (dayKey pfx y mo dy ++ pad5 1)
  else
    match parseSeqs ids with
    | none => none
    | some seqs => some (dayKey pfx y mo dy ++ pad5 (seqs.foldl Nat.max 0 + 1))

/-! ## Character and Location upsert (universe_builder.add_character,
lines 72-101, and add_location, lines 103-132)

The builder scans the dictionary for a case-insensitive name match; on a
match the submitted attributes inherit id, created_date and (when the
key is present) story_appearances from the existing record, otherwise a
fresh id is allocated.  Either way the attributes are stamped with
last_updated and stored under the submitted spelling of the name. -/

/-- add_character.  The attributes dictionary built by the form carries
powers and description; the timestamps are injected.  The result is
none exactly when a fresh id allocation hits an unparseable existing
identifier (the uncaught ValueError of generate_id). -/
def add_character (u : UniverseData) (name : String) (powers : List String)
    (description : String) (now : String) (y mo dy : Nat) : Option UniverseData :=
  let nameLower := pyLower name
  match u.characters.find? (fun p => pyLower p.1 == nameLower) with
  | some ex =>
    let attrs : Character :=
      { id := ex.2.id, description := description, powers := powers,
        story_appearances := ex.2.story_appearances,
        created_date := ex.2.created_date, last_updated := now }
    some { u with characters := dictSet u.characters name attrs }
  | none =>
    match generate_id u "CHAR" y mo dy with
    | none => none
    | some cid =>
      let fresh : Character :=
        { id := cid, description := description, powers := powers,
          story_appearances := some [], created_date := now, last_updated := now }
      some { u with characters := dictSet u.characters name fresh }

/-- add_location, symmetric to add_character with details holding only a
description. -/
def add_location (u : UniverseData) (name : String)
    (description : String) (now : String) (y mo dy : Nat) : Option UniverseData :=
  let nameLower := pyLower name
  match u.locations.find? (fun p => pyLower p.1 == nameLower) with
  | some ex =>
    let details : Location :=
      { id := ex.2.id, description := description,
        story_appearances := ex.2.story_appearances,
        created_date := ex.2.created_date, last_updated := now }
    some { u with locations := dictSet u.locations name details }
  | none =>
    match generate_id u "LOC" y mo dy with
    | none => none
    | some lid =>
      let fresh : Location :=
        { id := lid, description := description,
          story_appearances := some [], created_date := now, last_updated := now }
      some { u with locations := dictSet u.locations name fresh }

/-! ## Story append (story_generator_app.save_story_to_universe,
lines 147-204)

The story entry is assembled first (including the id lookups for the
referenced characters and locations, which raise KeyError on a missing
name); only then is the title/content guard evaluated.  On success the
story is appended, every referenced record gets the story id pushed
onto story_appearances (created on demand), and the whole graph is
rewritten to the file in the same call.  On an empty title or content
nothing is mutated and the False marker is returned. -/

structure StoryInput where
  title : String
  story : String
  moral : String
deriving DecidableEq, Repr

structure MetaInput where
  theme : String
  target_age : String
  word_count : Nat
  characters : List String
  locations : List String
deriving DecidableEq, Repr

/-- The value save_story_to_universe hands back: the new story id on
success, or the False rejection marker. -/
inductive SaveResult where
  | saved (id : String)
  | rejected
deriving DecidableEq, Repr

/-- The comprehension `[universe_data[...][n]["id"] for n in names]`:
none models the KeyError on a missing name. -/
def lookupIds {α : Type} (getId : α → String)
    (m : List (String × α)) : List String → Option (List String)
  | [] => some []
  | n :: rest =>
    match pyGet m n with
    | none => none
    | some r => (lookupIds getId m rest).map (fun l => getId r :: l)

/-- One in-place update of the record stored under a name. -/
def updateAt {α : Type} (l : List (String × α)) (n : String) (f : α → α) :
    List (String × α) :=
  l.map (fun p => if p.1 == n then (p.1, f p.2) else p)

/-- The reference-update loops of save_story_to_universe: for each
name in the metadata list, push the story id onto that record. -/
def updateByNames {α : Type} (l : List (String × α)) (names : List String)
    (f : α → α) : List (String × α) :=
  names.foldl (fun acc n => updateAt acc n f) l

/-- Push a story id onto a character's story_appearances, creating the
list when the key is absent. -/
def bumpChar (sid : String) (c : Character) : Character :=
  { c with story_appearances := some ((c.story_appearances.getD []) ++ [sid]) }

/-- Push a story id onto a location's story_appearances. -/
def bumpLoc (sid : String) (c : Location) : Location :=
  { c with story_appearances := some ((c.story_appearances.getD []) ++ [sid]) }

/-- save_story_to_universe over the in-memory graph and the persisted
file (the file holds the serialized graph; it is rewritten only in the
success branch).  Returns the new memory state, the new file state and
the call's result; none models an uncaught KeyError or ValueError. -/
def save_story_to_universe (mem file : UniverseData) (sd : StoryInput)
    (md : MetaInput) (y mo dy : Nat) (now : String) :
    Option (UniverseData × UniverseData × SaveResult) :=
  match generate_id mem "STORY" y mo dy with
  | none => none
  | some story_id =>
  match lookupIds Character.id mem.characters md.characters with
  | none => none
  | some charIds =>
  match lookupIds Location.id mem.locations md.locations with
  | none => none
  | some locIds =>
    let meta : StoryMeta :=
      { generated_date := now, theme := md.theme,
        target_age := md.target_age, word_count := md.word_count,
        characters_used := charIds, locations_used := locIds }
    let entry : Story :=
      { id := story_id, title := pyStrip sd.title, content := pyStrip sd.story,
        moral_lesson := pyStrip sd.moral, metadata := meta }
    if entry.title ≠ "" ∧ entry.content ≠ "" then
      let mem1 : UniverseData :=
        { stories := mem.stories ++ [entry],
          characters := updateByNames mem.characters md.characters (bumpChar story_id),
          locations := updateByNames mem.locations md.locations (bumpLoc story_id) }
      some (mem1, mem1, SaveResult.saved story_id)
    else
      some (mem, file, SaveResult.rejected)

/-! ## Image prompt composition (story_image_generator lines 93-201) -/

/-- The per-character dictionary assembled by _get_character_details. -/
structure CharDetails where
  name : String
  description : String
  powers : List String
deriving DecidableEq, Repr

/-- The per-location dictionary assembled by _get_location_details. -/
structure LocDetails where
  name : String
  description : String
deriving DecidableEq, Repr

/-- _get_character_details (lines 93-110): each referenced id is first
tried as a dictionary key, then matched against the stored record ids;
unresolvable ids are silently skipped. -/
def get_character_details (chars : List (String × Character))
    (ids : List String) : List CharDetails :=
  ids.filterMap (fun cid =>
    match pyGet chars cid with
    | some c => some { name := cid, description := c.description, powers := c.powers }
    | none =>
      (chars.find? (fun p => p.2.id == cid)).map
        (fun p => { name := p.1, description := p.2.description, powers := p.2.powers }))

/-- _get_location_details (lines 112-128), symmetric. -/
def get_location_details (locs : List (String × Location))
    (ids : List String) : List LocDetails :=
  ids.filterMap (fun lid =>
    match pyGet locs lid with
    | some l => some { name := lid, description := l.description }
    | none =>
      (locs.find? (fun p => p.2.id == lid)).map
        (fun p => { name := p.1, description := p.2.description }))

/-- The main_features list built by _get_main_character_features
(lines 130-146): two case-insensitive searches over the description and
one case-sensitive search over the first power only. -/
def mainFeatureTags (c : CharDetails) : List String :=
  (if pyContains (pyLower c.description) "indian" then ["Indian"] else []) ++
  (if pyContains (pyLower c.description) "brown skin" then ["brown skin"] else []) ++
  (match c.powers with
   | [] => []
   | p :: _ =>
     if pyContains p "fly" then ["can fly"]
     else if pyContains p "run" then ["super fast"]
     else [])

/-- _get_main_character_features: the joined feature tags. -/
def get_main_character_features (c : CharDetails) : String :=
  pyJoin ", " (mainFeatureTags c)

/-- _create_prompt (lines 170-191).  The key_scene local of the source
is computed but never used in the returned prompt, so it is omitted. -/
def create_prompt (u : UniverseData) (story : Story) : String :=
  let characters := get_character_details u.characters story.metadata.characters_used
  let locations := get_location_details u.locations story.metadata.locations_used
  let elements :=
    (match characters with
     | [] => []
     | mc :: _ => [mc.name ++ ", " ++ get_main_character_features mc]) ++
    (match locations with
     | [] => []
     | l :: _ => ["at " ++ l.name])
  "children\x27s illustration, " ++ pyJoin ", " elements

/-! ## Image size validation (story_image_generator lines 193-201) -/

/-- The model section of the configuration (all read with getint). -/
structure ModelConfig where
  min_size : Int
  max_size : Int
  size_step : Int
deriving DecidableEq, Repr

/-- _validate_image_size: clamp below min_size and above max_size,
otherwise round down to a step multiple (Python floor division). -/
def validate_image_size (cfg : ModelConfig) (size : Int) : Int :=
  if size < cfg.min_size then cfg.min_size
  else if size > cfg.max_size then cfg.max_size
  else (Int.fdiv size cfg.size_step) * cfg.size_step

/-! ## Graph invariant predicates -/

/-- Case-insensitive distinctness of the names keying a dictionary: no
two entries have names that agree after lowering. -/
def caseDistinct {α : Type} (l : List (String × α)) : Prop :=
  (l.map (fun p => pyLower p.1)).Pairwise (fun a b => a ≠ b)

instance decCaseDistinct {α : Type} (l : List (String × α)) : Decidable (caseDistinct l) := by
  unfold caseDistinct
  infer_instance

/-- The attributes dictionary stored by add_character when an existing
record is matched: identity fields inherited, the rest resubmitted. -/
def updatedChar (ex : Character) (desc : String) (pws : List String) (now : String) :
    Character :=
  { id := ex.id, description := desc, powers := pws,
    story_appearances := ex.story_appearances, created_date := ex.created_date,
    last_updated := now }

/-- The details dictionary stored by add_location on an existing match. -/
def updatedLoc (ex : Location) (desc now : String) : Location :=
  { id := ex.id, description := desc,
    story_appearances := ex.story_appearances, created_date := ex.created_date,
    last_updated := now }

/-! ## Concrete sample data used by witnesses and counterexamples -/

/-- A stored character record, as the builder would have written it. -/
def ammuChar : Character :=
  { id := "CHAR2024011000001", description := "d0", powers := ["p"],
    story_appearances := some ["S1"], created_date := "cd", last_updated := "lu" }

/-- A one-character graph keyed by the spelling "Ammu". -/
def uAmmu : UniverseData :=
  { characters := [("Ammu", ammuChar)], locations := [], stories := [] }

/-- The record the builder writes when "Ammu" is re-submitted with a new
description "nd" and powers ["q"] at time "now". -/
def ammuCharUpdated : Character :=
  { id := "CHAR2024011000001", description := "nd", powers := ["q"],
    story_appearances := some ["S1"], created_date := "cd", last_updated := "now" }

/-- A bare metadata block for sample stories. -/
def sampleMeta : StoryMeta :=
  { generated_date := "g", theme := "th", target_age := "a",
    word_count := 5, characters_used := [], locations_used := [] }

/-- A stored story carrying the highest five-digit sequence of its day. -/
def storyOverflow : Story :=
  { id := "STORY2024011599999", title := "t", content := "c",
    moral_lesson := "m", metadata := sampleMeta }

/-- A graph whose only story carries the highest five-digit sequence of
its day. -/
def uOverflow : UniverseData :=
  { characters := [], locations := [], stories := [storyOverflow] }

/-- A stored story sitting at sequence 7 of its day. -/
def storySeq : Story :=
  { id := "STORY2024011500007", title := "t", content := "c",
    moral_lesson := "m", metadata := sampleMeta }

/-- A graph whose only story sits at sequence 7 of its day. -/
def uSeq : UniverseData :=
  { characters := [], locations := [], stories := [storySeq] }

/-- A stored character referenced by the story-append samples. -/
def aChar : Character :=
  { id := "CHAR2024011500001", description := "da", powers := ["px"],
    story_appearances := none, created_date := "c", last_updated := "l" }

/-- A stored location referenced by the story-append samples. -/
def hLoc : Location :=
  { id := "LOC2024011500001", description := "dh", story_appearances := none,
    created_date := "c", last_updated := "l" }

/-- A small graph with one character "A" and one location "H". -/
def memSample : UniverseData :=
  { characters := [("A", aChar)], locations := [("H", hLoc)], stories := [] }

/-- A story payload whose title is blank after trimming. -/
def sdEmpty : StoryInput := { title := "   ", story := "body", moral := "m" }

/-- A story payload with real title and content. -/
def sdFull : StoryInput := { title := " T ", story := " B ", moral := " M " }

/-- Metadata selecting the character "A" and location "H". -/
def mdSample : MetaInput :=
  { theme := "t", target_age := "a", word_count := 3,
    characters := ["A"], locations := ["H"] }

/-- The character "A" after the sample story append. -/
def aCharBumped : Character :=
  { id := "CHAR2024011500001", description := "da", powers := ["px"],
    story_appearances := some ["STORY2024011500001"], created_date := "c",
    last_updated := "l" }

/-- The location "H" after the sample story append. -/
def hLocBumped : Location :=
  { id := "LOC2024011500001", description := "dh",
    story_appearances := some ["STORY2024011500001"], created_date := "c",
    last_updated := "l" }

/-- The metadata block persisted by the sample story append. -/
def savedMeta : StoryMeta :=
  { generated_date := "now", theme := "t", target_age := "a", word_count := 3,
    characters_used := ["CHAR2024011500001"], locations_used := ["LOC2024011500001"] }

/-- The story entry persisted by the sample story append. -/
def storySaved : Story :=
  { id := "STORY2024011500001", title := "T", content := "B",
    moral_lesson := "M", metadata := savedMeta }

/-- The graph after the sample story append. -/
def uAfterSave : UniverseData :=
  { characters := [("A", aCharBumped)], locations := [("H", hLocBumped)],
    stories := [storySaved] }

/-- A stored character whose description and first power light up all
three feature searches of the prompt composer. -/
def charFly : Character :=
  { id := "CHARX", description := "An Indian girl with brown skin",
    powers := ["fly fast"], story_appearances := none,
    created_date := "c", last_updated := "l" }

/-- Graph for the prompt-composition samples. -/
def uFeat : UniverseData :=
  { characters := [("Ammu", charFly)], locations := [], stories := [] }

/-- Metadata of the sample story referencing charFly by id. -/
def metaFeat : StoryMeta :=
  { generated_date := "g", theme := "t", target_age := "a", word_count := 1,
    characters_used := ["CHARX"], locations_used := [] }

/-- The sample story fed to the prompt composer. -/
def storyFeat : Story :=
  { id := "S", title := "T", content := "body", moral_lesson := "m",
    metadata := metaFeat }

/-- The character-details record the composer derives for charFly. -/
def mcFly : CharDetails :=
  { name := "Ammu", description := "An Indian girl with brown skin",
    powers := ["fly fast"] }

/-! ## Theorems -/

/-- C1 (counterexample): on the quoted raw text the parser does not
discard the "Story:" label from the body, and the moral does not become
"Be kind.": the body keeps the "Story:" block as its first section and
the moral is empty, because the "Moral Lesson:" block carries no text
after its label and the following block lies outside the capture
region. -/
theorem parse_story_claim_counterexample :
    parse_story "Title: X\n\nStory:\n\nFirst part.\n\nSecond part.\n\nMoral Lesson:\n\nBe kind." =
      ("X", "Story:\n\nFirst part.\n\nSecond part.", "") ∧
    ("Story:\n\nFirst part.\n\nSecond part." : String) ≠ "First part.\n\nSecond part." ∧
    ("" : String) ≠ "Be kind." := by
  exact ⟨by decide, by decide, by decide⟩

/-- C1 (amended): on the quoted raw text the parser returns title "X",
body "Story:\n\nFirst part.\n\nSecond part." (the "Story:" block, label
included, is captured as the first body section), and an empty moral. -/
theorem parse_story_actual_roundtrip :
    parse_story "Title: X\n\nStory:\n\nFirst part.\n\nSecond part.\n\nMoral Lesson:\n\nBe kind." =
      ("X", "Story:\n\nFirst part.\n\nSecond part.", "") := by
  decide

/-- C2 (counterexample): loading a corrupt persisted file does not fail
with a store-corruption error: it silently resets the loaded state to
the empty graph, indistinguishable from the missing-file result. -/
theorem load_universe_corrupt_counterexample :
    load_universe FileState.corrupt = { characters := [], locations := [], stories := [] } ∧
    load_universe FileState.corrupt = load_universe FileState.missing :=
  ⟨rfl, rfl⟩

/-- C2 (amended): both an unparseable and a missing persisted file make
load_universe reset the in-memory state to the empty graph (an error
message is displayed but no exception is raised); a parseable file is
returned as stored. -/
theorem load_universe_reset_behavior :
    load_universe FileState.corrupt = { characters := [], locations := [], stories := [] } ∧
    load_universe FileState.missing = { characters := [], locations := [], stories := [] } ∧
    ∀ u : UniverseData, load_universe (FileState.valid u) = u :=
  ⟨rfl, rfl, fun _ => rfl⟩

/-- C9 (counterexample): with min_size 600, max_size 1024 and step 512
(a configuration with min ≤ max and a positive step), the requested
size 700 is validated to 512, which lies below min_size. -/
theorem validate_image_size_counterexample :
    (600 : Int) ≤ 1024 ∧ (0 : Int) < 512 ∧
    validate_image_size { min_size := 600, max_size := 1024, size_step := 512 } 700 = 512 ∧
    ¬ (600 : Int) ≤
      validate_image_size { min_size := 600, max_size := 1024, size_step := 512 } 700 := by
  exact ⟨by decide, by decide, by decide, by decide⟩

/-- C9 (amended): when min_size and max_size are themselves multiples of
the positive step and min_size ≤ max_size, the validated size lies in
the configured range and is a multiple of the step. -/
theorem validate_image_size_in_range (cfg : ModelConfig) (size : Int)
    (hmm : cfg.min_size ≤ cfg.max_size) (hstep : 0 < cfg.size_step)
    (hmin : cfg.size_step ∣ cfg.min_size) (hmax : cfg.size_step ∣ cfg.max_size) :
    cfg.min_size ≤ validate_image_size cfg size ∧
    validate_image_size cfg size ≤ cfg.max_size ∧
    cfg.size_step ∣ validate_image_size cfg size := by
  unfold validate_image_size
  by_cases h1 : size < cfg.min_size
  · rw [if_pos h1]
    exact ⟨le_refl _, hmm, hmin⟩
  · rw [if_neg h1]
    by_cases h2 : size > cfg.max_size
    · rw [if_pos h2]
      exact ⟨hmm, le_refl _, hmax⟩
    · rw [if_neg h2]
      push_neg at h1 h2
      rw [Int.fdiv_eq_ediv _ (le_of_lt hstep)]
      refine ⟨?_, le_trans (Int.ediv_mul_le size (ne_of_gt hstep)) h2, dvd_mul_left _ _⟩
      obtain ⟨m, hm⟩ := hmin
      have hmle : m ≤ size / cfg.size_step := by
        rw [Int.le_ediv_iff_mul_le hstep]
        calc m * cfg.size_step = cfg.min_size := by rw [hm]; ring
        _ ≤ size := h1
      calc cfg.min_size = m * cfg.size_step := by rw [hm]; ring
      _ ≤ size / cfg.size_step * cfg.size_step :=
        mul_le_mul_of_nonneg_right hmle (le_of_lt hstep)

/-- C9 (witness): the amended range theorem applied to the
configuration min 512, max 1024, step 256 and requested size 700. -/
theorem validate_image_size_in_range_witness :
    (512 : Int) ≤ validate_image_size { min_size := 512, max_size := 1024, size_step := 256 } 700 ∧
    validate_image_size { min_size := 512, max_size := 1024, size_step := 256 } 700 ≤ 1024 ∧
    (256 : Int) ∣ validate_image_size { min_size := 512, max_size := 1024, size_step := 256 } 700 :=
  validate_image_size_in_range { min_size := 512, max_size := 1024, size_step := 256 } 700
    (by decide) (by decide) (by decide) (by decide)

/-- C10: a block whose stripped text begins with "Title:", processed
while the body-capturing region is open, rewrites the title to the text
after the label and is appended whole — label included — to the body
accumulator, so the title text recurs inside the returned body. -/
theorem processSection_title_during_capture (st : ParseState) (b : String)
    (hin : st.inStory = true)
    (ht : pyStartsWith (pyStrip (pyStrip b)) "Title:" = true) :
    processSection st b =
      { st with title := pyStrip (pyReplace (pyStrip b) "Title:" ""),
                content := st.content ++ [pyStrip b] } := by
  unfold processSection
  simp only [ht, if_true, hin]

/-- C10 (witness): the capture-state title rewrite evaluated on the
block " Title: New Name " from the open-body state. -/
theorem processSection_title_during_capture_witness :
    processSection ⟨"old", true, "m", ["blk"]⟩ " Title: New Name " =
      ⟨"New Name", true, "m", ["blk", "Title: New Name"]⟩ := by
  rw [processSection_title_during_capture ⟨"old", true, "m", ["blk"]⟩ " Title: New Name "
    rfl (by decide)]
  decide

theorem find?_map_overwrite {α : Type} (l : List (String × α)) (k : String) (v : α)
    (h : l.any (fun p => p.1 == k) = true) :
    (l.map (fun p => if p.1 == k then (k, v) else p)).find? (fun p => p.1 == k) =
      some (k, v) := by
  induction l with
  | nil => simp at h
  | cons p rest ih =>
    by_cases hp : p.1 = k
    · simp [hp]
    · have hp' : (p.1 == k) = false := by simp [hp]
      have hrest : rest.any (fun p => p.1 == k) = true := by
        simp only [List.any_cons, hp', Bool.false_or] at h
        exact h
      simp only [List.map_cons, hp', Bool.false_eq_true, if_false]
      rw [List.find?_cons_of_neg _ (by simp [hp]), ih hrest]

theorem find?_append_new {α : Type} (l : List (String × α)) (k : String) (v : α)
    (h : l.any (fun p => p.1 == k) = false) :
    (l ++ [(k, v)]).find? (fun p => p.1 == k) = some (k, v) := by
  induction l with
  | nil => simp
  | cons p rest ih =>
    simp only [List.any_cons, Bool.or_eq_false_iff] at h
    simp only [List.cons_append, List.find?]
    rw [h.1]
    exact ih h.2

theorem pyGet_dictSet_self {α : Type} (l : List (String × α)) (k : String) (v : α) :
    pyGet (dictSet l k v) k = some v := by
  unfold pyGet dictSet
  cases h : l.any (fun p => p.1 == k) with
  | true => rw [if_pos rfl, find?_map_overwrite l k v h]; rfl
  | false => rw [if_neg (by simp), find?_append_new l k v h]; rfl

theorem dictSet_caseDistinct {α : Type} (l : List (String × α)) (k : String) (v : α)
    (hd : caseDistinct l) (hx : ∀ p ∈ l, pyLower p.1 = pyLower k → p.1 = k) :
    caseDistinct (dictSet l k v) := by
  unfold caseDistinct dictSet
  cases h : l.any (fun p => p.1 == k) with
  | true =>
    rw [if_pos rfl]
    have hkeys : (l.map (fun p => if p.1 == k then (k, v) else p)).map
        (fun p => pyLower p.1) = l.map (fun p => pyLower p.1) := by
      rw [List.map_map]
      apply List.map_congr_left
      intro p _
      by_cases hpk : p.1 = k
      · simp [hpk]
      · simp [hpk]
    rw [hkeys]
    exact hd
  | false =>
    rw [if_neg (by simp), List.map_append, List.pairwise_append]
    refine ⟨hd, by simp, ?_⟩
    intro a ha b hb
    simp only [List.map_cons, List.map_nil, List.mem_singleton] at hb
    subst hb
    simp only [List.mem_map] at ha
    obtain ⟨p, hp, rfl⟩ := ha
    intro hEq
    have hpk : p.1 = k := hx p hp hEq
    have hTrue : l.any (fun p => p.1 == k) = true :=
      List.any_eq_true.mpr ⟨p, hp, by simp [hpk]⟩
    rw [h] at hTrue
    exact absurd hTrue (by simp)

theorem add_character_shape (u : UniverseData) (name : String) (pws : List String)
    (desc now : String) (y mo dy : Nat) (u' : UniverseData)
    (h : add_character u name pws desc now y mo dy = some u') :
    u'.locations = u.locations ∧ u'.stories = u.stories ∧
    ∃ v, u'.characters = dictSet u.characters name v := by
  simp only [add_character] at h
  cases hf : u.characters.find? (fun p => pyLower p.1 == pyLower name) with
  | some ex =>
    rw [hf] at h
    simp only [Option.some.injEq] at h
    subst h
    exact ⟨rfl, rfl, _, rfl⟩
  | none =>
    rw [hf] at h
    cases hg : generate_id u "CHAR" y mo dy with
    | none => rw [hg] at h; simp at h
    | some cid =>
      rw [hg] at h
      simp only [Option.some.injEq] at h
      subst h
      exact ⟨rfl, rfl, _, rfl⟩

theorem add_location_shape (u : UniverseData) (name : String)
    (desc now : String) (y mo dy : Nat) (u' : UniverseData)
    (h : add_location u name desc now y mo dy = some u') :
    u'.characters = u.characters ∧ u'.stories = u.stories ∧
    ∃ v, u'.locations = dictSet u.locations name v := by
  simp only [add_location] at h
  cases hf : u.locations.find? (fun p => pyLower p.1 == pyLower name) with
  | some ex =>
    rw [hf] at h
    simp only [Option.some.injEq] at h
    subst h
    exact ⟨rfl, rfl, _, rfl⟩
  | none =>
    rw [hf] at h
    cases hg : generate_id u "LOC" y mo dy with
    | none => rw [hg] at h; simp at h
    | some lid =>
      rw [hg] at h
      simp only [Option.some.injEq] at h
      subst h
      exact ⟨rfl, rfl, _, rfl⟩

/-- C6 (counterexample): starting from a graph holding only "Ammu",
re-submitting the character under the spelling "AMMU" leaves two
entries whose names differ only in case (both carrying the same id),
instead of updating the single existing entry. -/
theorem add_character_case_duplicate_counterexample :
    add_character uAmmu "AMMU" ["q"] "nd" "now" 2024 1 15 =
      some { characters := [("Ammu", ammuChar), ("AMMU", ammuCharUpdated)],
             locations := [], stories := [] } ∧
    pyLower "Ammu" = pyLower "AMMU" ∧ ("Ammu" : String) ≠ "AMMU" := by
  exact ⟨by decide, by decide, by decide⟩

/-- C6 (amended): an upsert preserves case-insensitive name uniqueness
provided the submitted name, whenever it matches an existing entry
case-insensitively, matches its stored spelling exactly; a differently
spelled case variant instead adds a second entry under the new spelling
alongside the old one. -/
theorem upsert_preserves_case_uniqueness (u : UniverseData) (name : String)
    (pws : List String) (desc now : String) (y mo dy : Nat) :
    (∀ u', add_character u name pws desc now y mo dy = some u' →
      caseDistinct u.characters →
      (∀ p ∈ u.characters, pyLower p.1 = pyLower name → p.1 = name) →
      caseDistinct u'.characters) ∧
    (∀ u', add_location u name desc now y mo dy = some u' →
      caseDistinct u.locations →
      (∀ p ∈ u.locations, pyLower p.1 = pyLower name → p.1 = name) →
      caseDistinct u'.locations) := by
  constructor
  · intro u' h hd hx
    obtain ⟨-, -, v, hv⟩ := add_character_shape u name pws desc now y mo dy u' h
    rw [hv]
    exact dictSet_caseDistinct _ _ _ hd hx
  · intro u' h hd hx
    obtain ⟨-, -, v, hv⟩ := add_location_shape u name desc now y mo dy u' h
    rw [hv]
    exact dictSet_caseDistinct _ _ _ hd hx

/-- C6 (witness): re-submitting "Ammu" under its stored spelling keeps
the one-entry graph case-insensitively unique. -/
theorem upsert_preserves_case_uniqueness_witness :
    caseDistinct (UniverseData.mk [("Ammu", ammuCharUpdated)] [] []).characters :=
  (upsert_preserves_case_uniqueness uAmmu "Ammu" ["q"] "nd" "now" 2024 1 15).1
    (UniverseData.mk [("Ammu", ammuCharUpdated)] [] [])
    (by decide) (by decide) (by decide)

/-- C5: re-submitting an existing Character (or Location) name in any
letter case stores, under the submitted spelling, a record that keeps
the pre-existing id, created_date and story_appearances while the
description (and powers) are replaced by the submitted values and
last_updated is restamped. -/
theorem upsert_same_name_preserves_identity (u : UniverseData) (name : String)
    (pws : List String) (desc now : String) (y mo dy : Nat) :
    (∀ ex, u.characters.find? (fun p => pyLower p.1 == pyLower name) = some ex →
      ∃ u', add_character u name pws desc now y mo dy = some u' ∧
        pyGet u'.characters name = some
          { id := ex.2.id, description := desc, powers := pws,
            story_appearances := ex.2.story_appearances,
            created_date := ex.2.created_date, last_updated := now }) ∧
    (∀ ex, u.locations.find? (fun p => pyLower p.1 == pyLower name) = some ex →
      ∃ u', add_location u name desc now y mo dy = some u' ∧
        pyGet u'.locations name = some
          { id := ex.2.id, description := desc,
            story_appearances := ex.2.story_appearances,
            created_date := ex.2.created_date, last_updated := now }) := by
  constructor
  · intro ex hex
    have harg : add_character u name pws desc now y mo dy =
        some { u with characters := dictSet u.characters name (updatedChar ex.2 desc pws now) } := by
      simp only [add_character, hex, updatedChar]
    exact ⟨_, harg, pyGet_dictSet_self u.characters name _⟩
  · intro ex hex
    have harg : add_location u name desc now y mo dy =
        some { u with locations := dictSet u.locations name (updatedLoc ex.2 desc now) } := by
      simp only [add_location, hex, updatedLoc]
    exact ⟨_, harg, pyGet_dictSet_self u.locations name _⟩

/-- C5 (witness): re-submitting "Ammu" as "AMMU" keeps id, created_date
and story_appearances and replaces the rest. -/
theorem upsert_same_name_preserves_identity_witness :
    ∃ u', add_character uAmmu "AMMU" ["q"] "nd" "now" 2024 1 15 = some u' ∧
      pyGet u'.characters "AMMU" = some ammuCharUpdated :=
  (upsert_same_name_preserves_identity uAmmu "AMMU" ["q"] "nd" "now" 2024 1 15).1
    ("Ammu", ammuChar) (by decide)

theorem find?_updateAt {α : Type} (l : List (String × α)) (m n : String) (f : α → α) :
    (updateAt l m f).find? (fun p => p.1 == n) =
      if n = m then (l.find? (fun p => p.1 == n)).map (fun p => (p.1, f p.2))
      else l.find? (fun p => p.1 == n) := by
  induction l with
  | nil => simp [updateAt]
  | cons p rest ih =>
    have fc : ∀ (a : String × α) (t : List (String × α)), (a.1 == n) = true →
        List.find? (fun q => q.1 == n) (a :: t) = some a := by
      intro a t h
      simp [List.find?, h]
    have fcn : ∀ (a : String × α) (t : List (String × α)), (a.1 == n) = false →
        List.find? (fun q => q.1 == n) (a :: t) = List.find? (fun q => q.1 == n) t := by
      intro a t h
      simp [List.find?, h]
    have hhead : updateAt (p :: rest) m f =
        (if p.1 == m then (p.1, f p.2) else p) :: updateAt rest m f := rfl
    rw [hhead]
    by_cases hpm : p.1 = m
    · rw [if_pos (show (p.1 == m) = true by simp [hpm])]
      by_cases hpn : p.1 = n
      · have hnm : n = m := by rw [← hpn, hpm]
        rw [if_pos hnm, fc (p.1, f p.2) _ (by simp [hpn]), fc p _ (by simp [hpn])]
        rfl
      · have hnm : ¬ n = m := fun e => hpn (by rw [hpm, ← e])
        rw [if_neg hnm, fcn (p.1, f p.2) _ (by simp [hpn]), fcn p _ (by simp [hpn]), ih,
          if_neg hnm]
    · rw [if_neg (show ¬ (p.1 == m) = true by simp [hpm])]
      by_cases hpn : p.1 = n
      · have hnm : ¬ n = m := fun e => hpm (by rw [hpn, e])
        rw [if_neg hnm, fc p _ (by simp [hpn]), fc p _ (by simp [hpn])]
      · rw [fcn p _ (by simp [hpn]), fcn p _ (by simp [hpn])]
        exact ih

theorem pyGet_updateAt {α : Type} (l : List (String × α)) (m n : String) (f : α → α) :
    pyGet (updateAt l m f) n = if n = m then (pyGet l n).map f else pyGet l n := by
  unfold pyGet
  rw [find?_updateAt]
  by_cases hnm : n = m
  · rw [if_pos hnm, if_pos hnm, Option.map_map, Option.map_map]
    rfl
  · rw [if_neg hnm, if_neg hnm]

theorem pyGet_updateByNames {α : Type} (l : List (String × α)) (names : List String)
    (f : α → α) (hn : names.Nodup) (n : String) :
    pyGet (updateByNames l names f) n =
      if n ∈ names then (pyGet l n).map f else pyGet l n := by
  induction names generalizing l with
  | nil => simp [updateByNames]
  | cons m rest ih =>
    have hstep : updateByNames l (m :: rest) f = updateByNames (updateAt l m f) rest f := rfl
    obtain ⟨hm, hrest⟩ := List.nodup_cons.mp hn
    rw [hstep, ih _ hrest, pyGet_updateAt]
    by_cases hnr : n ∈ rest
    · have hnm : ¬ n = m := fun e => hm (e ▸ hnr)
      simp [hnr, hnm, List.mem_cons]
    · by_cases hnm : n = m
      · simp [hnr, hnm, List.mem_cons, hm]
      · simp [hnr, hnm, List.mem_cons]

/-- C3: a story payload whose title or content is blank after trimming
is rejected by save_story_to_universe (the False marker, no exception,
given that the metadata names resolve and the id allocation succeeds),
and neither the in-memory graph nor the persisted file changes. -/
theorem append_story_rejects_empty (mem file : UniverseData) (sd : StoryInput)
    (md : MetaInput) (y mo dy : Nat) (now : String)
    (hg : (generate_id mem "STORY" y mo dy).isSome)
    (hc : (lookupIds Character.id mem.characters md.characters).isSome)
    (hl : (lookupIds Location.id mem.locations md.locations).isSome)
    (he : pyStrip sd.title = "" ∨ pyStrip sd.story = "") :
    save_story_to_universe mem file sd md y mo dy now =
      some (mem, file, SaveResult.rejected) := by
  obtain ⟨sid, hsid⟩ := Option.isSome_iff_exists.mp hg
  obtain ⟨cids, hcids⟩ := Option.isSome_iff_exists.mp hc
  obtain ⟨lids, hlids⟩ := Option.isSome_iff_exists.mp hl
  simp only [save_story_to_universe, hsid, hcids, hlids]
  rw [if_neg]
  rintro ⟨h1, h2⟩
  cases he with
  | inl h => exact h1 h
  | inr h => exact h2 h

/-- C3 (witness): the rejection theorem evaluated on a one-character,
one-location graph and a payload with a whitespace-only title. -/
theorem append_story_rejects_empty_witness :
    save_story_to_universe memSample memSample sdEmpty mdSample 2024 1 15 "now" =
      some (memSample, memSample, SaveResult.rejected) :=
  append_story_rejects_empty memSample memSample sdEmpty mdSample 2024 1 15 "now"
    (by decide) (by decide) (by decide) (Or.inl (by decide))

/-- C7: after a successful appendStory, the record stored under every
character or location name of the story's metadata (the selection lists,
duplicate-free as produced by the form) has the new story id appended
exactly once to its story_appearances, and the record stored under any
name outside the metadata is unchanged. -/
theorem append_story_appearances (mem file : UniverseData) (sd : StoryInput)
    (md : MetaInput) (y mo dy : Nat) (now : String)
    (u2 f2 : UniverseData) (sid : String)
    (hres : save_story_to_universe mem file sd md y mo dy now =
      some (u2, f2, SaveResult.saved sid))
    (hnc : md.characters.Nodup) (hnl : md.locations.Nodup) :
    (∀ n ∈ md.characters,
      pyGet u2.characters n = (pyGet mem.characters n).map (bumpChar sid)) ∧
    (∀ n, n ∉ md.characters → pyGet u2.characters n = pyGet mem.characters n) ∧
    (∀ n ∈ md.locations,
      pyGet u2.locations n = (pyGet mem.locations n).map (bumpLoc sid)) ∧
    (∀ n, n ∉ md.locations → pyGet u2.locations n = pyGet mem.locations n) := by
  simp only [save_story_to_universe] at hres
  cases hgen : generate_id mem "STORY" y mo dy with
  | none => rw [hgen] at hres; simp at hres
  | some story_id =>
    simp only [hgen] at hres
    cases hcid : lookupIds Character.id mem.characters md.characters with
    | none => rw [hcid] at hres; simp at hres
    | some cids =>
      simp only [hcid] at hres
      cases hlid : lookupIds Location.id mem.locations md.locations with
      | none => rw [hlid] at hres; simp at hres
      | some lids =>
        simp only [hlid] at hres
        by_cases hcond : pyStrip sd.title ≠ "" ∧ pyStrip sd.story ≠ ""
        · rw [if_pos hcond] at hres
          simp only [Option.some.injEq, Prod.mk.injEq, SaveResult.saved.injEq] at hres
          obtain ⟨hu, -, hsid⟩ := hres
          subst hsid
          subst hu
          refine ⟨?_, ?_, ?_, ?_⟩
          · intro n hn
            rw [pyGet_updateByNames mem.characters md.characters _ hnc n, if_pos hn]
          · intro n hn
            rw [pyGet_updateByNames mem.characters md.characters _ hnc n, if_neg hn]
          · intro n hn
            rw [pyGet_updateByNames mem.locations md.locations _ hnl n, if_pos hn]
          · intro n hn
            rw [pyGet_updateByNames mem.locations md.locations _ hnl n, if_neg hn]
        · rw [if_neg hcond] at hres
          simp at hres

/-- C7 (witness): on the sample graph, appending the story bumps the
appearances of "A" and "H" once and leaves an unlisted name alone. -/
theorem append_story_appearances_witness :
    pyGet uAfterSave.characters "A" =
      (pyGet memSample.characters "A").map (bumpChar "STORY2024011500001") ∧
    pyGet uAfterSave.characters "Z" = pyGet memSample.characters "Z" ∧
    pyGet uAfterSave.locations "H" =
      (pyGet memSample.locations "H").map (bumpLoc "STORY2024011500001") := by
  have h := append_story_appearances memSample memSample sdFull mdSample 2024 1 15 "now"
    uAfterSave uAfterSave "STORY2024011500001" (by decide) (by decide) (by decide)
  exact ⟨h.1 "A" (by decide), h.2.1 "Z" (by decide), h.2.2.1 "H" (by decide)⟩

theorem digitVal_digitChar : ∀ d : Nat, d < 10 → digitVal (digitChar d) = some d := by
  decide

theorem parse_pad5 (k : Nat) (hk : k ≤ 99999) : parseNat (pad5 k) = some k := by
  unfold pad5
  rw [if_pos (by omega)]
  show parseDigitsAux [digitChar (k / 10000 % 10), digitChar (k / 1000 % 10),
    digitChar (k / 100 % 10), digitChar (k / 10 % 10), digitChar (k % 10)] 0 = some k
  have e1 := digitVal_digitChar (k / 10000 % 10) (Nat.mod_lt _ (by norm_num))
  have e2 := digitVal_digitChar (k / 1000 % 10) (Nat.mod_lt _ (by norm_num))
  have e3 := digitVal_digitChar (k / 100 % 10) (Nat.mod_lt _ (by norm_num))
  have e4 := digitVal_digitChar (k / 10 % 10) (Nat.mod_lt _ (by norm_num))
  have e5 := digitVal_digitChar (k % 10) (Nat.mod_lt _ (by norm_num))
  simp only [parseDigitsAux, e1, e2, e3, e4, e5]
  congr 1
  omega

theorem pad5_data_length (k : Nat) (hk : k ≤ 99999) : (pad5 k).data.length = 5 := by
  unfold pad5
  rw [if_pos (by omega)]
  rfl

theorem str_data_append (s t : String) : (s ++ t).data = s.data ++ t.data := by
  cases s with
  | mk l1 =>
    cases t with
    | mk l2 => rfl

theorem lastFive_append_pad5 (a : String) (k : Nat) (hk : k ≤ 99999) :
    lastFive (a ++ pad5 k) = pad5 k := by
  unfold lastFive
  rw [str_data_append, List.length_append, pad5_data_length k hk]
  have hlen : a.data.length + 5 - 5 = a.data.length := by omega
  rw [hlen, List.drop_left]

theorem foldl_max_aux {s : Nat} : ∀ (L : List Nat) (acc : Nat), acc ≤ s →
    (s ∈ L ∨ acc = s) → (∀ x ∈ L, x ≤ s) → L.foldl Nat.max acc = s := by
  intro L
  induction L with
  | nil =>
    intro acc h1 h2 _
    rcases h2 with h | h
    · simp at h
    · exact h
  | cons a t ih =>
    intro acc h1 h2 h3
    simp only [List.foldl_cons]
    have ha : a ≤ s := h3 a (List.mem_cons_self a t)
    rcases h2 with h | h
    · rcases List.mem_cons.mp h with h' | hmem
      · apply ih (Nat.max acc a) (Nat.max_le.mpr ⟨h1, ha⟩)
        · right
          rw [← h']
          exact Nat.max_eq_right (h' ▸ h1)
        · exact fun x hx => h3 x (List.mem_cons_of_mem _ hx)
      · exact ih (Nat.max acc a) (Nat.max_le.mpr ⟨h1, ha⟩) (Or.inl hmem)
          (fun x hx => h3 x (List.mem_cons_of_mem _ hx))
    · subst h
      apply ih (Nat.max acc a) (Nat.max_le.mpr ⟨le_refl _, ha⟩)
      · right
        exact Nat.max_eq_left ha
      · exact fun x hx => h3 x (List.mem_cons_of_mem _ hx)

theorem foldl_max_of_mem {L : List Nat} {s : Nat}
    (h1 : ∀ x ∈ L, x ≤ s) (h2 : s ∈ L) : L.foldl Nat.max 0 = s :=
  foldl_max_aux L 0 (Nat.zero_le s) (Or.inl h2) h1

theorem parseSeqs_some_of (M : List String)
    (h : ∀ i ∈ M, (parseNat (lastFive i)).isSome) :
    ∃ L, parseSeqs M = some L ∧
      (∀ i ∈ M, ∃ x ∈ L, parseNat (lastFive i) = some x) ∧
      (∀ x ∈ L, ∃ i ∈ M, parseNat (lastFive i) = some x) := by
  induction M with
  | nil => exact ⟨[], rfl, by simp, by simp⟩
  | cons i rest ih =>
    obtain ⟨k, hk⟩ := Option.isSome_iff_exists.mp (h i (List.mem_cons_self i rest))
    obtain ⟨L, hL, h1, h2⟩ := ih (fun j hj => h j (List.mem_cons_of_mem _ hj))
    refine ⟨k :: L, ?_, ?_, ?_⟩
    · simp [parseSeqs, hk, hL]
    · intro j hj
      rcases List.mem_cons.mp hj with h' | hj'
      · exact ⟨k, List.mem_cons_self k L, h' ▸ hk⟩
      · obtain ⟨x, hx, hpx⟩ := h1 j hj'
        exact ⟨x, List.mem_cons_of_mem _ hx, hpx⟩
    · intro x hx
      rcases List.mem_cons.mp hx with h' | hx'
      · exact ⟨i, List.mem_cons_self i rest, h' ▸ hk⟩
      · obtain ⟨j, hj, hpj⟩ := h2 x hx'
        exact ⟨j, List.mem_cons_of_mem _ hj, hpj⟩

/-- C4 (amended): for any kind and date, when every existing identifier
matching the day key carries a well-formed five-digit sequence bounded
by the maximum s, and the successor s + 1 still fits in five digits, the
allocator returns the day key followed by the five-digit rendering of
s + 1, whose trailing five digits parse back to s + 1; and on a graph
with no matching identifiers it returns sequence 1. -/
theorem generate_id_next_sequence (u : UniverseData) (pfx : String)
    (y mo dy : Nat) (s : Nat)
    (_hpfx : pfx = "CHAR" ∨ pfx = "LOC" ∨ pfx = "STORY")
    (hub : ∀ i ∈ todayIds u pfx y mo dy,
      ∃ k, k ≤ 99999 ∧ i = dayKey pfx y mo dy ++ pad5 k ∧ k ≤ s)
    (hmem : dayKey pfx y mo dy ++ pad5 s ∈ todayIds u pfx y mo dy)
    (hs : s + 1 ≤ 99999) :
    (generate_id u pfx y mo dy = some (dayKey pfx y mo dy ++ pad5 (s + 1)) ∧
      parseNat (lastFive (dayKey pfx y mo dy ++ pad5 (s + 1))) = some (s + 1)) ∧
    ∀ u2 : UniverseData, todayIds u2 pfx y mo dy = [] →
      generate_id u2 pfx y mo dy = some (dayKey pfx y mo dy ++ pad5 1) ∧
      parseNat (lastFive (dayKey pfx y mo dy ++ pad5 1)) = some 1 := by
  constructor
  · have hall : ∀ i ∈ todayIds u pfx y mo dy, (parseNat (lastFive i)).isSome := by
      intro i hi
      obtain ⟨k, hk1, hk2, -⟩ := hub i hi
      rw [hk2, lastFive_append_pad5 _ k hk1, parse_pad5 k hk1]
      rfl
    obtain ⟨L, hL, h1, h2⟩ := parseSeqs_some_of _ hall
    have hps : parseNat (lastFive (dayKey pfx y mo dy ++ pad5 s)) = some s := by
      rw [lastFive_append_pad5 _ s (by omega), parse_pad5 s (by omega)]
    have hsmem : s ∈ L := by
      obtain ⟨x, hx, hpx⟩ := h1 _ hmem
      rw [hps] at hpx
      injection hpx with e
      rw [e]
      exact hx
    have hsbound : ∀ x ∈ L, x ≤ s := by
      intro x hx
      obtain ⟨i, hi, hpi⟩ := h2 x hx
      obtain ⟨k, hk1, hk2, hk3⟩ := hub i hi
      rw [hk2, lastFive_append_pad5 _ k hk1, parse_pad5 k hk1] at hpi
      injection hpi with e
      rw [← e]
      exact hk3
    have hfold : L.foldl Nat.max 0 = s := foldl_max_of_mem hsbound hsmem
    have hne : (todayIds u pfx y mo dy).isEmpty = false := by
      cases hids : todayIds u pfx y mo dy with
      | nil => rw [hids] at hmem; simp at hmem
      | cons a t => rfl
    constructor
    · simp only [generate_id, hne, Bool.false_eq_true, if_false, hL, hfold]
    · rw [lastFive_append_pad5 _ (s + 1) hs]
      exact parse_pad5 (s + 1) hs
  · intro u2 h2
    constructor
    · simp [generate_id, h2]
    · rw [lastFive_append_pad5 _ 1 (by omega)]
      exact parse_pad5 1 (by omega)

/-- C4 (witness): on a graph whose only matching story id carries
sequence 7, the allocator returns the day key with five-digit
sequence 8, parsing back to 8. -/
theorem generate_id_next_sequence_witness :
    generate_id uSeq "STORY" 2024 1 15 = some (dayKey "STORY" 2024 1 15 ++ pad5 8) ∧
    parseNat (lastFive (dayKey "STORY" 2024 1 15 ++ pad5 8)) = some 8 := by
  have h := generate_id_next_sequence uSeq "STORY" 2024 1 15 7
    (Or.inr (Or.inr rfl))
    (by
      intro i hi
      have ht : todayIds uSeq "STORY" 2024 1 15 = ["STORY2024011500007"] := by decide
      rw [ht] at hi
      simp only [List.mem_singleton] at hi
      subst hi
      exact ⟨7, by omega, by decide, by omega⟩)
    (by decide)
    (by omega)
  exact h.1

/-- C4 (counterexample): with a single existing story id at sequence
99999 for its day, the allocator returns an id whose trailing five
digits parse to 0, not to one more than the maximum sequence 99999: the
six-digit successor overflows the five-digit suffix. -/
theorem generate_id_overflow_counterexample :
    todayIds uOverflow "STORY" 2024 1 15 = ["STORY2024011599999"] ∧
    parseNat (lastFive "STORY2024011599999") = some 99999 ∧
    generate_id uOverflow "STORY" 2024 1 15 = some "STORY20240115100000" ∧
    parseNat (lastFive "STORY20240115100000") = some 0 ∧
    (0 : Nat) ≠ 99999 + 1 := by
  exact ⟨by decide, by decide, by decide, by decide, by decide⟩

theorem str_append_assoc (a b c : String) : a ++ b ++ c = a ++ (b ++ c) := by
  cases a with
  | mk l1 =>
    cases b with
    | mk l2 =>
      cases c with
      | mk l3 =>
        show String.mk (l1 ++ l2 ++ l3) = String.mk (l1 ++ (l2 ++ l3))
        rw [List.append_assoc]

theorem str_append_empty (a : String) : a ++ "" = a := by
  cases a with
  | mk l =>
    show String.mk (l ++ []) = String.mk l
    rw [List.append_nil]

/-- C8 (counterexample): a character whose description mentions both
"Indian" and "brown skin" and whose first power contains "fly" produces
a subject clause with three derived feature tags, not at most two. -/
theorem create_prompt_three_tags_counterexample :
    get_character_details uFeat.characters storyFeat.metadata.characters_used = [mcFly] ∧
    mainFeatureTags mcFly = ["Indian", "brown skin", "can fly"] ∧
    ¬ (mainFeatureTags mcFly).length ≤ 2 ∧
    create_prompt uFeat storyFeat =
      "children\x27s illustration, Ammu, Indian, brown skin, can fly" := by
  exact ⟨by decide, by decide, by decide, by decide⟩

/-- C8 (amended): when the story's metadata resolves to at least one
character, the prompt opens with a subject clause naming that first
character plus its derived feature tags — at most three: "Indian" and
"brown skin" from a case-insensitive search of the description, and one
of "can fly" or "super fast" from a case-sensitive search of the first
power only — followed by the location clause when one resolves. -/
theorem create_prompt_subject_clause (u : UniverseData) (story : Story)
    (mc : CharDetails) (rest : List CharDetails)
    (h : get_character_details u.characters story.metadata.characters_used = mc :: rest) :
    create_prompt u story =
      "children\x27s illustration, " ++ (mc.name ++ ", " ++ get_main_character_features mc) ++
        (match get_location_details u.locations story.metadata.locations_used with
         | [] => ""
         | l :: _ => ", at " ++ l.name) ∧
    (mainFeatureTags mc).length ≤ 3 ∧
    ("Indian" ∈ mainFeatureTags mc ↔ pyContains (pyLower mc.description) "indian" = true) ∧
    ("brown skin" ∈ mainFeatureTags mc ↔
      pyContains (pyLower mc.description) "brown skin" = true) ∧
    ("can fly" ∈ mainFeatureTags mc ↔
      ∃ p ps, mc.powers = p :: ps ∧ pyContains p "fly" = true) := by
  refine ⟨?_, ?_, ?_, ?_, ?_⟩
  · unfold create_prompt
    rw [h]
    cases hloc : get_location_details u.locations story.metadata.locations_used with
    | nil =>
      simp only [List.append_nil, pyJoin]
      rw [str_append_empty]
    | cons l ls =>
      simp only [List.cons_append, List.nil_append, pyJoin]
      have hlit : (", " : String) ++ ("at " ++ l.name) = ", at " ++ l.name := by
        rw [← str_append_assoc, show (", " : String) ++ "at " = ", at " from by decide]
      simp only [str_append_assoc, hlit]
  · unfold mainFeatureTags
    cases mc.powers <;> simp only [] <;> split_ifs <;> simp
  · unfold mainFeatureTags
    cases mc.powers <;> simp only [] <;> split_ifs <;> simp_all
  · unfold mainFeatureTags
    cases mc.powers <;> simp only [] <;> split_ifs <;> simp_all
  · unfold mainFeatureTags
    cases hp : mc.powers <;> simp only [] <;> split_ifs <;> simp_all

/-- C8 (witness): the subject-clause theorem evaluated on the sample
graph, where the location list is empty. -/
theorem create_prompt_subject_clause_witness :
    create_prompt uFeat storyFeat =
      "children\x27s illustration, " ++ (mcFly.name ++ ", " ++ get_main_character_features mcFly) ++
        (match get_location_details uFeat.locations storyFeat.metadata.locations_used with
         | [] => ""
         | l :: _ => ", at " ++ l.name) :=
  (create_prompt_subject_clause uFeat storyFeat mcFly [] (by decide)).1

end MinnalAmmu
